import Mathlib

/-!
# InstaCloneApp: state model and mutation handlers

A shallow embedding of `src/InstaCloneApp.js`: the four pieces of component
state (`users`, `posts`, `currentUser`, `route`), the seed data, and the
handlers `handleToggleLike`, `handleToggleSave`, `handleAddComment`,
`handleCreatePost` and `handleAuth`.

Conventions.
* JavaScript strings are Lean `String`s; `===` on strings is equality, and a
  string is falsy exactly when it is `""`.
* `crypto.randomUUID()` and `Date.now()` are inputs of the environment. A
  handler that calls them inside an `Array.prototype.map` callback receives
  them as functions of the callback's element index, so that every call may
  return a different value.
* `setX(updater)` is applied to the state the handler was called in.
-/

namespace InstaClone

/-! ## Types (the two JSDoc typedefs) -/

/-- Element type of `PostType.comments`: `{id, user, text, ts}`. -/
structure CommentType where
  id : String
  user : String
  text : String
  ts : Int
  deriving DecidableEq

/-- The typedef `UserType`; `avatar?` and `bio?` are optional fields. -/
structure UserType where
  id : String
  username : String
  followers : Int
  following : Int
  avatar : Option String := none
  bio : Option String := none
  deriving DecidableEq

/-- The typedef `PostType`; `tags?` is an optional field. -/
structure PostType where
  id : String
  author : String
  image : String
  caption : String
  likes : List String
  saved : List String
  comments : List CommentType
  ts : Int
  tags : Option (List String)
  deriving DecidableEq

/-- The four `useState` cells that the handlers read and write. -/
structure AppState where
  users : List UserType
  posts : List PostType
  currentUser : String
  route : String
  deriving DecidableEq

/-- The object `loadState()` returns when storage holds a snapshot; each field
may be missing. -/
structure Persisted where
  users : Option (List UserType) := none
  posts : Option (List PostType) := none
  currentUser : Option String := none
  route : Option String := none
  deriving DecidableEq

/-- Argument object of `handleCreatePost`, destructured as
`{ image, caption, tags }`. -/
structure PostData where
  image : String
  caption : Option String
  tags : Option (List String)
  deriving DecidableEq

/-! ## JavaScript built-ins used by the handlers -/

/-- Code points removed by `String.prototype.trim`: ECMAScript WhiteSpace
and LineTerminator. -/
def isJsWhiteSpace (c : Char) : Bool :=
  decide (c.toNat ∈ [0x09, 0x0A, 0x0B, 0x0C, 0x0D, 0x20, 0xA0, 0x1680,
    0x2000, 0x2001, 0x2002, 0x2003, 0x2004, 0x2005, 0x2006, 0x2007, 0x2008,
    0x2009, 0x200A, 0x2028, 0x2029, 0x202F, 0x205F, 0x3000, 0xFEFF])

/-- The `trim` method on a list of characters: drop white space at both ends. -/
def trimChars (cs : List Char) : List Char :=
  ((cs.dropWhile isJsWhiteSpace).reverse.dropWhile isJsWhiteSpace).reverse

/-- The method `String.prototype.trim`. -/
def jsTrim (s : String) : String :=
  String.mk (trimChars s.data)

/-- Truthiness of a string: every string but `""` is truthy. -/
def truthy (s : String) : Bool :=
  !(s == "")

/-- The callback form `xs.map((x, i) => f i x)`, with indices counted from
`i`. -/
def mapIdxFrom {α β : Type} (f : Nat → α → β) : Nat → List α → List β
  | _, [] => []
  | i, x :: xs => f i x :: mapIdxFrom f (i + 1) xs

/-! ## Mock data -/

def DEFAULT_USERS : List UserType :=
  [ { id := "u1", username := "arjun", followers := 120, following := 180,
      avatar := some "https://i.pravatar.cc/150?img=12",
      bio := some "Coffee • Code • Cricket" },
    { id := "u2", username := "meera", followers := 420, following := 210,
      avatar := some "https://i.pravatar.cc/150?img=32",
      bio := some "Travel ✈ | Foodie 🍜" },
    { id := "u3", username := "rahul", followers := 88, following := 99,
      avatar := some "https://i.pravatar.cc/150?img=56",
      bio := some "Designer • Minimalist" },
    { id := "u4", username := "sana", followers := 301, following := 150,
      avatar := some "https://i.pravatar.cc/150?img=14",
      bio := some "Street photography 📷" } ]

def SAMPLE_IMAGES : List String :=
  [ "https://images.unsplash.com/photo-1526401281623-279b498f10b4?q=80&w=1200&auto=format&fit=crop",
    "https://images.unsplash.com/photo-1519681393784-d120267933ba?q=80&w=1200&auto=format&fit=crop",
    "https://images.unsplash.com/photo-1500530855697-b586d89ba3ee?q=80&w=1200&auto=format&fit=crop",
    "https://images.unsplash.com/photo-1483729558449-99ef09a8c325?q=80&w=1200&auto=format&fit=crop",
    "https://images.unsplash.com/photo-1512427691650-1f48f8eb3e47?q=80&w=1200&auto=format&fit=crop" ]

/-- The seed post built for the image `img` at index `i` of
`SAMPLE_IMAGES.slice(0, 4)`; `now i` is what `Date.now()` returns there. -/
def seedPost (now : Nat → Int) (i : Nat) (img : String) : PostType :=
  { id := "p" ++ toString (i + 1)
    author := (DEFAULT_USERS.get
      ⟨i % DEFAULT_USERS.length, Nat.mod_lt i (by decide)⟩).username
    image := img
    caption :=
      match ["Sunset vibes", "Minimal desk", "City lights", "Cozy reads"][i]? with
      | some c => if truthy c then c else ""
      | none => ""
    likes := []
    saved := []
    comments := []
    ts := now i - ((i : Int) + 1) * 3600000
    tags := some (["#aesthetic", "#daily", "#igers"].take (1 + i % 3)) }

/-- The local `init` of the `posts` initialiser. -/
def initPosts (now : Nat → Int) : List PostType :=
  mapIdxFrom (seedPost now) 0 (SAMPLE_IMAGES.take 4)

/-- The initial values of the four state cells, given what `loadState()`
returns (`none` for its `null`). -/
def initialState (persisted : Option Persisted) (now : Nat → Int) : AppState :=
  { users := ((persisted.bind fun s => s.users).getD DEFAULT_USERS)
    posts := ((persisted.bind fun s => s.posts).getD (initPosts now))
    currentUser :=
      match persisted.bind fun s => s.currentUser with
      | some u => if truthy u then u else ""
      | none => ""
    route :=
      match persisted.bind fun s => s.route with
      | some r => if truthy r then r else "home"
      | none => "home" }

/-! ## Handlers -/

/-- The expression
`xs.includes(u) ? xs.filter(v => v !== u) : [...xs, u]`
shared by the like and the save handler. -/
def toggleMember (u : String) (xs : List String) : List String :=
  if xs.contains u then xs.filter (fun v => v != u) else xs ++ [u]

def handleToggleLike (s : AppState) (postId : String) : AppState :=
  if !truthy s.currentUser then s
  else
    { s with
      posts := s.posts.map fun p =>
        if p.id == postId then { p with likes := toggleMember s.currentUser p.likes }
        else p }

def handleToggleSave (s : AppState) (postId : String) : AppState :=
  if !truthy s.currentUser then s
  else
    { s with
      posts := s.posts.map fun p =>
        if p.id == postId then { p with saved := toggleMember s.currentUser p.saved }
        else p }

/-- The map callback of `handleAddComment` at element index `i`. -/
def addCommentTo (u postId text : String) (uuid : Nat → String) (now : Nat → Int)
    (i : Nat) (p : PostType) : PostType :=
  if p.id == postId then
    { p with
      comments := p.comments ++
        [{ id := uuid i, user := u, text := jsTrim text, ts := now i }] }
  else p

def handleAddComment (s : AppState) (postId text : String)
    (uuid : Nat → String) (now : Nat → Int) : AppState :=
  if !truthy s.currentUser || !truthy (jsTrim text) then s
  else
    { s with
      posts := mapIdxFrom (addCommentTo s.currentUser postId text uuid now) 0 s.posts }

def handleCreatePost (s : AppState) (d : PostData) (uuid : String) (now : Int) :
    AppState :=
  if !truthy s.currentUser then s
  else
    let post : PostType :=
      { id := uuid
        author := s.currentUser
        image := d.image
        caption :=
          match d.caption with
          | some c => if truthy c then c else ""
          | none => ""
        likes := []
        saved := []
        comments := []
        ts := now
        tags := d.tags }
    { s with posts := post :: s.posts, route := "home" }

def handleAuth (s : AppState) (name : String) (uuid : String) : AppState :=
  if !truthy (jsTrim name) then s
  else
    let exists_ := s.users.find? fun u => u.username == jsTrim name
    let users :=
      if exists_.isNone then
        s.users ++ [{ id := uuid, username := jsTrim name, followers := 0, following := 0 }]
      else s.users
    { s with users := users, currentUser := jsTrim name }

/-! ## Concrete states for instantiating the theorems -/

/-- A state with the default users and the seed posts, each seed post liked by
"arjun" and "meera", with "meera" logged in on the explore route. -/
def sampleState : AppState :=
  { users := DEFAULT_USERS
    posts := (initPosts fun _ => 0).map fun p => { p with likes := ["arjun", "meera"] }
    currentUser := "meera"
    route := "explore" }

/-- The state `sampleState` after `onLogout`, which is `setCurrentUser("")`. -/
def loggedOutState : AppState :=
  { sampleState with currentUser := "" }

/-! ## Auxiliary facts -/

theorem truthy_eq_true_iff (s : String) : truthy s = true ↔ s ≠ "" := by
  simp [truthy]

theorem truthy_eq_false_iff (s : String) : truthy s = false ↔ s = "" := by
  simp [truthy]

theorem dropWhile_eq_nil_of_all {α : Type} (p : α → Bool) (l : List α)
    (h : ∀ x ∈ l.dropWhile p, p x = true) : l.dropWhile p = [] := by
  induction l with
  | nil => rfl
  | cons a t ih =>
    by_cases ha : p a = true
    · simp only [List.dropWhile_cons_of_pos ha] at h ⊢
      exact ih h
    · exfalso
      have hd : (a :: t).dropWhile p = a :: t := List.dropWhile_cons_of_neg ha
      rw [hd] at h
      exact ha (h a (List.mem_cons_self a t))

theorem trimChars_eq_nil_iff (cs : List Char) :
    trimChars cs = [] ↔ ∀ c ∈ cs, isJsWhiteSpace c = true := by
  unfold trimChars
  rw [List.reverse_eq_nil_iff, List.dropWhile_eq_nil_iff]
  constructor
  · intro h
    have h2 : cs.dropWhile isJsWhiteSpace = [] :=
      dropWhile_eq_nil_of_all _ _ (fun x hx => h x (List.mem_reverse.mpr hx))
    exact List.dropWhile_eq_nil_iff.mp h2
  · intro h x hx
    have h2 : cs.dropWhile isJsWhiteSpace = [] := List.dropWhile_eq_nil_iff.mpr h
    rw [h2] at hx
    simp at hx

theorem jsTrim_eq_empty_iff (s : String) :
    jsTrim s = "" ↔ ∀ c ∈ s.data, isJsWhiteSpace c = true := by
  rw [← trimChars_eq_nil_iff]
  unfold jsTrim
  constructor
  · intro h
    have := congrArg String.data h
    simpa using this
  · intro h
    rw [h]

theorem mem_toggleMember_self (u : String) (xs : List String) :
    u ∈ toggleMember u xs ↔ u ∉ xs := by
  unfold toggleMember
  by_cases h : u ∈ xs
  · simp [h]
  · simp [h]

theorem mem_toggleMember_of_ne (u v : String) (xs : List String) (hv : v ≠ u) :
    v ∈ toggleMember u xs ↔ v ∈ xs := by
  unfold toggleMember
  by_cases h : u ∈ xs
  · simp [h, hv]
  · simp [h, hv]

theorem mem_toggleMember_twice (u v : String) (xs : List String) :
    v ∈ toggleMember u (toggleMember u xs) ↔ v ∈ xs := by
  by_cases hv : v = u
  · subst hv
    rw [mem_toggleMember_self, mem_toggleMember_self]
    exact not_not
  · rw [mem_toggleMember_of_ne u v _ hv, mem_toggleMember_of_ne u v _ hv]

theorem nodup_toggleMember (u : String) (xs : List String) (h : xs.Nodup) :
    (toggleMember u xs).Nodup := by
  unfold toggleMember
  by_cases hu : u ∈ xs
  · have hc : xs.contains u = true := by simpa using hu
    rw [if_pos hc]
    exact h.filter _
  · have hc : ¬ (xs.contains u = true) := by simpa using hu
    rw [if_neg hc]
    exact List.nodup_append.mpr ⟨h, List.nodup_singleton u, by simpa using hu⟩

theorem length_mapIdxFrom {α β : Type} (f : Nat → α → β) (i : Nat) (xs : List α) :
    (mapIdxFrom f i xs).length = xs.length := by
  induction xs generalizing i with
  | nil => rfl
  | cons x t ih => simp [mapIdxFrom, ih]

theorem getElem?_mapIdxFrom {α β : Type} (f : Nat → α → β) (i : Nat) (xs : List α)
    (k : Nat) : (mapIdxFrom f i xs)[k]? = (xs[k]?).map (f (i + k)) := by
  induction xs generalizing i k with
  | nil => simp [mapIdxFrom]
  | cons x t ih =>
    cases k with
    | zero => simp [mapIdxFrom]
    | succ k =>
      simp only [mapIdxFrom, List.getElem?_cons_succ, ih]
      rw [show i + 1 + k = i + (k + 1) by omega]

theorem mem_mapIdxFrom {α β : Type} (f : Nat → α → β) (i : Nat) (xs : List α) (y : β)
    (h : y ∈ mapIdxFrom f i xs) : ∃ k, ∃ x ∈ xs, y = f k x := by
  induction xs generalizing i with
  | nil => simp [mapIdxFrom] at h
  | cons x t ih =>
    simp only [mapIdxFrom, List.mem_cons] at h
    rcases h with h | h
    · exact ⟨i, x, List.mem_cons_self x t, h⟩
    · obtain ⟨k, z, hz, hy⟩ := ih (i + 1) h
      exact ⟨k, z, List.mem_cons_of_mem x hz, hy⟩

theorem mapIdxFrom_eq_self {α : Type} (f : Nat → α → α) (i : Nat) (xs : List α)
    (h : ∀ k, ∀ x ∈ xs, f k x = x) : mapIdxFrom f i xs = xs := by
  induction xs generalizing i with
  | nil => rfl
  | cons x t ih =>
    simp only [mapIdxFrom]
    rw [h i x (List.mem_cons_self x t),
      ih (i + 1) (fun k z hz => h k z (List.mem_cons_of_mem x hz))]

theorem posts_handleToggleLike (s : AppState) (postId : String) (hu : s.currentUser ≠ "") :
    (handleToggleLike s postId).posts = s.posts.map fun p =>
      if p.id == postId then { p with likes := toggleMember s.currentUser p.likes }
      else p := by
  simp [handleToggleLike, truthy, hu]

theorem posts_handleToggleSave (s : AppState) (postId : String) (hu : s.currentUser ≠ "") :
    (handleToggleSave s postId).posts = s.posts.map fun p =>
      if p.id == postId then { p with saved := toggleMember s.currentUser p.saved }
      else p := by
  simp [handleToggleSave, truthy, hu]

theorem currentUser_handleToggleLike (s : AppState) (postId : String) :
    (handleToggleLike s postId).currentUser = s.currentUser := by
  unfold handleToggleLike
  split <;> rfl

/-! ## Toggling likes and saves -/

/-- C1: for a non-empty current user `u`, after `handleToggleLike(postId)` the
post list keeps its length, and at every position holding a post with id
`postId` the new post still has that id, has `u` in `likes` exactly when `u`
was not in `likes` before, and has every other username in `likes` exactly
when it was there before; `handleToggleSave(postId)` does the same on
`saved`. -/
theorem C1_toggle_flips_membership (s : AppState) (postId : String)
    (hu : s.currentUser ≠ "") :
    ((handleToggleLike s postId).posts.length = s.posts.length ∧
      ∀ (i : Nat) (p : PostType), s.posts[i]? = some p → p.id = postId →
        ∃ q, (handleToggleLike s postId).posts[i]? = some q ∧ q.id = postId ∧
          (s.currentUser ∈ q.likes ↔ s.currentUser ∉ p.likes) ∧
          ∀ v, v ≠ s.currentUser → (v ∈ q.likes ↔ v ∈ p.likes)) ∧
    ((handleToggleSave s postId).posts.length = s.posts.length ∧
      ∀ (i : Nat) (p : PostType), s.posts[i]? = some p → p.id = postId →
        ∃ q, (handleToggleSave s postId).posts[i]? = some q ∧ q.id = postId ∧
          (s.currentUser ∈ q.saved ↔ s.currentUser ∉ p.saved) ∧
          ∀ v, v ≠ s.currentUser → (v ∈ q.saved ↔ v ∈ p.saved)) := by
  rw [posts_handleToggleLike s postId hu, posts_handleToggleSave s postId hu]
  refine ⟨⟨List.length_map _ _, ?_⟩, ⟨List.length_map _ _, ?_⟩⟩
  · intro i p hp hid
    refine ⟨{ p with likes := toggleMember s.currentUser p.likes }, ?_, hid,
      mem_toggleMember_self _ _, fun v hv => mem_toggleMember_of_ne _ _ _ hv⟩
    simp [List.getElem?_map, hp, hid]
  · intro i p hp hid
    refine ⟨{ p with saved := toggleMember s.currentUser p.saved }, ?_, hid,
      mem_toggleMember_self _ _, fun v hv => mem_toggleMember_of_ne _ _ _ hv⟩
    simp [List.getElem?_map, hp, hid]

/-- Instance of C1 at `sampleState` and post id "p2". -/
theorem C1_toggle_flips_membership_witness :
    sampleState.currentUser ≠ "" ∧
    ((handleToggleLike sampleState "p2").posts.length = sampleState.posts.length ∧
      ∀ (i : Nat) (p : PostType), sampleState.posts[i]? = some p → p.id = "p2" →
        ∃ q, (handleToggleLike sampleState "p2").posts[i]? = some q ∧ q.id = "p2" ∧
          (sampleState.currentUser ∈ q.likes ↔ sampleState.currentUser ∉ p.likes) ∧
          ∀ v, v ≠ sampleState.currentUser → (v ∈ q.likes ↔ v ∈ p.likes)) ∧
    ((handleToggleSave sampleState "p2").posts.length = sampleState.posts.length ∧
      ∀ (i : Nat) (p : PostType), sampleState.posts[i]? = some p → p.id = "p2" →
        ∃ q, (handleToggleSave sampleState "p2").posts[i]? = some q ∧ q.id = "p2" ∧
          (sampleState.currentUser ∈ q.saved ↔ sampleState.currentUser ∉ p.saved) ∧
          ∀ v, v ≠ sampleState.currentUser → (v ∈ q.saved ↔ v ∈ p.saved)) :=
  ⟨by decide, C1_toggle_flips_membership sampleState "p2" (by decide)⟩

/-- C2: for a logged-in user, applying `handleToggleLike(p)` twice in a row
keeps the length of the post list and leaves at every position a post whose
`likes` holds exactly the usernames it held before the two toggles. -/
theorem C2_toggle_like_twice (s : AppState) (postId : String)
    (hu : s.currentUser ≠ "") :
    (handleToggleLike (handleToggleLike s postId) postId).posts.length = s.posts.length ∧
    ∀ (i : Nat) (p : PostType), s.posts[i]? = some p →
      ∃ q, (handleToggleLike (handleToggleLike s postId) postId).posts[i]? = some q ∧
        ∀ v, v ∈ q.likes ↔ v ∈ p.likes := by
  have hu2 : (handleToggleLike s postId).currentUser ≠ "" := by
    rw [currentUser_handleToggleLike]; exact hu
  rw [posts_handleToggleLike _ postId hu2, currentUser_handleToggleLike,
    posts_handleToggleLike s postId hu]
  refine ⟨by simp, ?_⟩
  intro i p hp
  by_cases hid : p.id = postId
  · refine ⟨{ p with likes := toggleMember s.currentUser (toggleMember s.currentUser p.likes) },
      ?_, fun v => mem_toggleMember_twice _ _ _⟩
    simp [List.getElem?_map, hp, hid]
  · refine ⟨p, ?_, fun v => Iff.rfl⟩
    simp [List.getElem?_map, hp, hid]

/-- Instance of C2 at `sampleState` and post id "p1". -/
theorem C2_toggle_like_twice_witness :
    sampleState.currentUser ≠ "" ∧
    (handleToggleLike (handleToggleLike sampleState "p1") "p1").posts.length
      = sampleState.posts.length ∧
    ∀ (i : Nat) (p : PostType), sampleState.posts[i]? = some p →
      ∃ q, (handleToggleLike (handleToggleLike sampleState "p1") "p1").posts[i]? = some q ∧
        ∀ v, v ∈ q.likes ↔ v ∈ p.likes :=
  ⟨by decide, C2_toggle_like_twice sampleState "p1" (by decide)⟩

/-! ## Logged-out calls -/

/-- C3: when `currentUser` is the empty string, `handleToggleLike`,
`handleToggleSave`, `handleAddComment` and `handleCreatePost` leave the post
list equal to the list before the call, and `handleCreatePost` also leaves
the route as it was. -/
theorem C3_logged_out_noop (s : AppState) (postId text : String) (d : PostData)
    (uuids : Nat → String) (nows : Nat → Int) (uuid : String) (now : Int)
    (hu : s.currentUser = "") :
    (handleToggleLike s postId).posts = s.posts ∧
    (handleToggleSave s postId).posts = s.posts ∧
    (handleAddComment s postId text uuids nows).posts = s.posts ∧
    (handleCreatePost s d uuid now).posts = s.posts ∧
    (handleCreatePost s d uuid now).route = s.route := by
  simp [handleToggleLike, handleToggleSave, handleAddComment, handleCreatePost, truthy, hu]

/-- Instance of C3 at `loggedOutState`. -/
theorem C3_logged_out_noop_witness :
    loggedOutState.currentUser = "" ∧
    (handleToggleLike loggedOutState "p1").posts = loggedOutState.posts ∧
    (handleToggleSave loggedOutState "p1").posts = loggedOutState.posts ∧
    (handleAddComment loggedOutState "p1" "nice!" (fun _ => "c") (fun _ => 7)).posts
      = loggedOutState.posts ∧
    (handleCreatePost loggedOutState ⟨"img", some "cap", none⟩ "n" 9).posts
      = loggedOutState.posts ∧
    (handleCreatePost loggedOutState ⟨"img", some "cap", none⟩ "n" 9).route
      = loggedOutState.route :=
  ⟨by decide, C3_logged_out_noop loggedOutState "p1" "nice!" ⟨"img", some "cap", none⟩
    (fun _ => "c") (fun _ => 7) "n" 9 (by decide)⟩

/-! ## Comments -/

theorem posts_handleAddComment (s : AppState) (postId text : String)
    (uuids : Nat → String) (nows : Nat → Int)
    (hu : s.currentUser ≠ "") (ht : jsTrim text ≠ "") :
    (handleAddComment s postId text uuids nows).posts =
      mapIdxFrom (addCommentTo s.currentUser postId text uuids nows) 0 s.posts := by
  simp [handleAddComment, truthy, hu, ht]

theorem handleAddComment_of_blank (s : AppState) (postId text : String)
    (uuids : Nat → String) (nows : Nat → Int) (ht : jsTrim text = "") :
    handleAddComment s postId text uuids nows = s := by
  simp [handleAddComment, truthy, ht]

/-- C4: for a logged-in user `u`: if every character of `text` is white space
(so that the trimmed text is empty), `handleAddComment` leaves the post list
unchanged; otherwise the post list keeps its length and at every position
holding a post with id `postId` the new post has the old comments, in their
old order, followed by exactly one new comment, whose text is the trimmed
text and whose user is `u`. The trimmed form of " hi " is "hi". -/
theorem C4_add_comment (s : AppState) (postId text : String)
    (uuids : Nat → String) (nows : Nat → Int) (hu : s.currentUser ≠ "") :
    ((∀ c ∈ text.data, isJsWhiteSpace c = true) →
      (handleAddComment s postId text uuids nows).posts = s.posts) ∧
    (¬ (∀ c ∈ text.data, isJsWhiteSpace c = true) →
      (handleAddComment s postId text uuids nows).posts.length = s.posts.length ∧
      ∀ (i : Nat) (p : PostType), s.posts[i]? = some p → p.id = postId →
        ∃ q c, (handleAddComment s postId text uuids nows).posts[i]? = some q ∧
          q.id = postId ∧ q.comments = p.comments ++ [c] ∧
          c.text = jsTrim text ∧ c.user = s.currentUser) ∧
    jsTrim " hi " = "hi" := by
  refine ⟨?_, ?_, by decide⟩
  · intro hw
    rw [handleAddComment_of_blank s postId text uuids nows ((jsTrim_eq_empty_iff text).mpr hw)]
  · intro hw
    have ht : jsTrim text ≠ "" := fun h => hw ((jsTrim_eq_empty_iff text).mp h)
    rw [posts_handleAddComment s postId text uuids nows hu ht]
    refine ⟨length_mapIdxFrom _ _ _, ?_⟩
    intro i p hp hid
    refine ⟨{ p with comments := p.comments ++
        [{ id := uuids i, user := s.currentUser, text := jsTrim text, ts := nows i }] },
      { id := uuids i, user := s.currentUser, text := jsTrim text, ts := nows i },
      ?_, hid, rfl, rfl, rfl⟩
    rw [getElem?_mapIdxFrom, hp]
    simp [addCommentTo, hid]

/-- Instance of C4 at `sampleState`, post id "p1" and text " hi ". -/
theorem C4_add_comment_witness :
    sampleState.currentUser ≠ "" ∧
    ¬ (∀ c ∈ " hi ".data, isJsWhiteSpace c = true) ∧
    (handleAddComment sampleState "p1" " hi " (fun _ => "c") (fun _ => 7)).posts.length
      = sampleState.posts.length ∧
    ∀ (i : Nat) (p : PostType), sampleState.posts[i]? = some p → p.id = "p1" →
      ∃ q c, (handleAddComment sampleState "p1" " hi " (fun _ => "c")
          (fun _ => 7)).posts[i]? = some q ∧
        q.id = "p1" ∧ q.comments = p.comments ++ [c] ∧
        c.text = jsTrim " hi " ∧ c.user = sampleState.currentUser :=
  ⟨by decide, by decide,
    (C4_add_comment sampleState "p1" " hi " (fun _ => "c") (fun _ => 7) (by decide)).2.1
      (by decide)⟩

/-! ## Creating a post -/

/-- C5: for a logged-in user `u`, `handleCreatePost` yields a post list of
length `|ps| + 1` whose element at index 0 is the new post (author `u`, the
given image, empty `likes`, `saved` and `comments`) followed by the posts of
`ps` unchanged and in their old order, and sets the route to "home" whatever
the route was. -/
theorem C5_create_post (s : AppState) (d : PostData) (uuid : String) (now : Int)
    (hu : s.currentUser ≠ "") :
    (handleCreatePost s d uuid now).posts.length = s.posts.length + 1 ∧
    (∃ post, (handleCreatePost s d uuid now).posts[0]? = some post ∧
      (handleCreatePost s d uuid now).posts = post :: s.posts ∧
      post.author = s.currentUser ∧ post.image = d.image ∧
      post.likes = [] ∧ post.saved = [] ∧ post.comments = []) ∧
    (handleCreatePost s d uuid now).route = "home" := by
  simp [handleCreatePost, truthy, hu]

/-- Instance of C5 at `sampleState`, whose route is "explore". -/
theorem C5_create_post_witness :
    sampleState.currentUser ≠ "" ∧ sampleState.route ≠ "home" ∧
    (handleCreatePost sampleState ⟨"img", none, some ["#x"]⟩ "n" 9).posts.length
      = sampleState.posts.length + 1 ∧
    (∃ post, (handleCreatePost sampleState ⟨"img", none, some ["#x"]⟩ "n" 9).posts[0]?
        = some post ∧
      (handleCreatePost sampleState ⟨"img", none, some ["#x"]⟩ "n" 9).posts
        = post :: sampleState.posts ∧
      post.author = sampleState.currentUser ∧ post.image = "img" ∧
      post.likes = [] ∧ post.saved = [] ∧ post.comments = []) ∧
    (handleCreatePost sampleState ⟨"img", none, some ["#x"]⟩ "n" 9).route = "home" :=
  ⟨by decide, by decide,
    C5_create_post sampleState ⟨"img", none, some ["#x"]⟩ "n" 9 (by decide)⟩

/-! ## Login -/

theorem handleAuth_of_blank (s : AppState) (name uuid : String) (ht : jsTrim name = "") :
    handleAuth s name uuid = s := by
  simp [handleAuth, truthy, ht]

theorem handleAuth_of_existing (s : AppState) (name uuid : String)
    (ht : jsTrim name ≠ "") (hex : ∃ u ∈ s.users, u.username = jsTrim name) :
    handleAuth s name uuid = { s with currentUser := jsTrim name } := by
  have hf : (s.users.find? fun u => u.username == jsTrim name).isNone = false := by
    obtain ⟨u, hu, hn⟩ := hex
    cases hfind : s.users.find? fun u => u.username == jsTrim name with
    | none =>
      have := List.find?_eq_none.mp hfind u hu
      simp [hn] at this
    | some v => rfl
  simp [handleAuth, truthy, ht, hf]

theorem handleAuth_of_new (s : AppState) (name uuid : String)
    (ht : jsTrim name ≠ "") (hex : ¬ ∃ u ∈ s.users, u.username = jsTrim name) :
    handleAuth s name uuid =
      { s with
        users := s.users ++
          [{ id := uuid, username := jsTrim name, followers := 0, following := 0 }]
        currentUser := jsTrim name } := by
  have hf : (s.users.find? fun u => u.username == jsTrim name).isNone = true := by
    have : (s.users.find? fun u => u.username == jsTrim name) = none := by
      apply List.find?_eq_none.mpr
      intro u hu hn
      exact hex ⟨u, hu, by simpa using hn⟩
    rw [this]; rfl
  simp [handleAuth, truthy, ht, hf]

/-- C6, as written, fails at the name " arjun " over the default directory: the
name is not blank and no user has the username " arjun ", yet `handleAuth`
appends no user and sets the current user to "arjun", not to " arjun ". -/
theorem C6_counterexample :
    ¬ (∀ c ∈ " arjun ".data, isJsWhiteSpace c = true) ∧
    (¬ ∃ u ∈ (initialState none fun _ => 0).users, u.username = " arjun ") ∧
    (handleAuth (initialState none fun _ => 0) " arjun " "id5").users = DEFAULT_USERS ∧
    (¬ ∃ nu, (handleAuth (initialState none fun _ => 0) " arjun " "id5").users
        = (initialState none fun _ => 0).users ++ [nu] ∧ nu.username = " arjun ") ∧
    (handleAuth (initialState none fun _ => 0) " arjun " "id5").currentUser = "arjun" ∧
    (handleAuth (initialState none fun _ => 0) " arjun " "id5").currentUser ≠ " arjun " := by
  refine ⟨by decide, by decide, by decide, ?_, by decide, by decide⟩
  rintro ⟨nu, h, -⟩
  have hl := congrArg List.length h
  have h4 : (handleAuth (initialState none fun _ => 0) " arjun " "id5").users.length = 4 := by
    decide
  have h5 : ((initialState none fun _ => 0).users ++ [nu]).length = 5 := by
    rw [List.length_append]; rfl
  omega

/-- C6, amended: with `t` the trimmed name. If `t` is not empty and a user
with username `t` exists, `handleAuth` leaves the user directory unchanged and
sets the current user to `t`; if `t` is not empty and no such user exists, it
appends exactly one user with username `t`, `followers = 0`, `following = 0`
and no avatar or bio, leaving the existing users unchanged, and sets the
current user to `t`. For a name made of white space only (the empty name
included), users and current user are unchanged. -/
theorem C6_auth_upsert_trimmed (s : AppState) (name uuid : String) :
    (jsTrim name ≠ "" → (∃ u ∈ s.users, u.username = jsTrim name) →
      (handleAuth s name uuid).users = s.users ∧
      (handleAuth s name uuid).currentUser = jsTrim name) ∧
    (jsTrim name ≠ "" → (¬ ∃ u ∈ s.users, u.username = jsTrim name) →
      ∃ nu, (handleAuth s name uuid).users = s.users ++ [nu] ∧
        nu.username = jsTrim name ∧ nu.followers = 0 ∧ nu.following = 0 ∧
        nu.avatar = none ∧ nu.bio = none ∧
        (handleAuth s name uuid).currentUser = jsTrim name) ∧
    ((∀ c ∈ name.data, isJsWhiteSpace c = true) →
      (handleAuth s name uuid).users = s.users ∧
      (handleAuth s name uuid).currentUser = s.currentUser) := by
  refine ⟨?_, ?_, ?_⟩
  · intro ht hex
    rw [handleAuth_of_existing s name uuid ht hex]
    exact ⟨rfl, rfl⟩
  · intro ht hex
    rw [handleAuth_of_new s name uuid ht hex]
    exact ⟨_, rfl, rfl, rfl, rfl, rfl, rfl, rfl⟩
  · intro hw
    rw [handleAuth_of_blank s name uuid ((jsTrim_eq_empty_iff name).mpr hw)]
    exact ⟨rfl, rfl⟩

/-- Instances of the amended C6 at `sampleState`: the existing name " arjun ",
the new name " zed " and the blank name of three spaces. -/
theorem C6_auth_upsert_trimmed_witness :
    ((handleAuth sampleState " arjun " "id5").users = sampleState.users ∧
      (handleAuth sampleState " arjun " "id5").currentUser = jsTrim " arjun ") ∧
    (∃ nu, (handleAuth sampleState " zed " "id5").users = sampleState.users ++ [nu] ∧
      nu.username = jsTrim " zed " ∧ nu.followers = 0 ∧ nu.following = 0 ∧
      nu.avatar = none ∧ nu.bio = none ∧
      (handleAuth sampleState " zed " "id5").currentUser = jsTrim " zed ") ∧
    ((handleAuth sampleState "   " "id5").users = sampleState.users ∧
      (handleAuth sampleState "   " "id5").currentUser = sampleState.currentUser) :=
  ⟨(C6_auth_upsert_trimmed sampleState " arjun " "id5").1 (by decide) (by decide),
    (C6_auth_upsert_trimmed sampleState " zed " "id5").2.1 (by decide) (by decide),
    (C6_auth_upsert_trimmed sampleState "   " "id5").2.2 (by decide)⟩

/-- C7: the default directory has pairwise distinct usernames, and for every
directory with pairwise distinct usernames and every name, the directory
after `handleAuth(name)` still has pairwise distinct usernames. -/
theorem C7_username_unique (s : AppState) (name uuid : String)
    (h : s.users.Pairwise fun a b => a.username ≠ b.username) :
    (DEFAULT_USERS.Pairwise fun a b => a.username ≠ b.username) ∧
    ((handleAuth s name uuid).users.Pairwise fun a b => a.username ≠ b.username) := by
  refine ⟨by decide, ?_⟩
  by_cases ht : jsTrim name = ""
  · rw [handleAuth_of_blank s name uuid ht]
    exact h
  · by_cases hex : ∃ u ∈ s.users, u.username = jsTrim name
    · rw [handleAuth_of_existing s name uuid ht hex]
      exact h
    · rw [handleAuth_of_new s name uuid ht hex]
      refine List.pairwise_append.mpr ⟨h, List.pairwise_singleton _ _, ?_⟩
      intro a ha b hb hab
      rw [List.mem_singleton] at hb
      subst hb
      exact hex ⟨a, ha, hab⟩

/-- Instance of C7 at `sampleState` and the new name "zed". -/
theorem C7_username_unique_witness :
    (sampleState.users.Pairwise fun a b => a.username ≠ b.username) ∧
    (DEFAULT_USERS.Pairwise fun a b => a.username ≠ b.username) ∧
    ((handleAuth sampleState "zed" "id5").users.Pairwise
      fun a b => a.username ≠ b.username) :=
  ⟨by decide, C7_username_unique sampleState "zed" "id5" (by decide)⟩

/-! ## Invariant and frame of the post list -/

theorem likes_saved_addCommentTo (u postId text : String) (uuids : Nat → String)
    (nows : Nat → Int) (i : Nat) (p : PostType) :
    (addCommentTo u postId text uuids nows i p).likes = p.likes ∧
    (addCommentTo u postId text uuids nows i p).saved = p.saved := by
  unfold addCommentTo
  split <;> exact ⟨rfl, rfl⟩

theorem handleToggleLike_of_logged_out (s : AppState) (postId : String)
    (hu : s.currentUser = "") : handleToggleLike s postId = s := by
  simp [handleToggleLike, truthy, hu]

theorem handleToggleSave_of_logged_out (s : AppState) (postId : String)
    (hu : s.currentUser = "") : handleToggleSave s postId = s := by
  simp [handleToggleSave, truthy, hu]

theorem handleAddComment_of_logged_out (s : AppState) (postId text : String)
    (uuids : Nat → String) (nows : Nat → Int) (hu : s.currentUser = "") :
    handleAddComment s postId text uuids nows = s := by
  simp [handleAddComment, truthy, hu]

theorem posts_handleAddComment_cases (s : AppState) (postId text : String)
    (uuids : Nat → String) (nows : Nat → Int) :
    (handleAddComment s postId text uuids nows).posts = s.posts ∨
    (handleAddComment s postId text uuids nows).posts =
      mapIdxFrom (addCommentTo s.currentUser postId text uuids nows) 0 s.posts := by
  by_cases hu : s.currentUser = ""
  · left; rw [handleAddComment_of_logged_out s postId text uuids nows hu]
  · by_cases ht : jsTrim text = ""
    · left; rw [handleAddComment_of_blank s postId text uuids nows ht]
    · right; exact posts_handleAddComment s postId text uuids nows hu ht

/-- C8: every seed post has duplicate-free `likes` and `saved`, and if every
post of the list has duplicate-free `likes` and `saved`, then so has every
post of the list after `handleToggleLike`, after `handleToggleSave`, after
`handleAddComment` and after `handleCreatePost`, for any current user, post
id and arguments. -/
theorem C8_likes_saved_nodup (s : AppState) (postId text : String) (d : PostData)
    (uuids : Nat → String) (nows : Nat → Int) (uuid : String) (now : Int)
    (seedNow : Nat → Int)
    (h : ∀ p ∈ s.posts, p.likes.Nodup ∧ p.saved.Nodup) :
    (∀ p ∈ initPosts seedNow, p.likes.Nodup ∧ p.saved.Nodup) ∧
    (∀ p ∈ (handleToggleLike s postId).posts, p.likes.Nodup ∧ p.saved.Nodup) ∧
    (∀ p ∈ (handleToggleSave s postId).posts, p.likes.Nodup ∧ p.saved.Nodup) ∧
    (∀ p ∈ (handleAddComment s postId text uuids nows).posts,
      p.likes.Nodup ∧ p.saved.Nodup) ∧
    (∀ p ∈ (handleCreatePost s d uuid now).posts, p.likes.Nodup ∧ p.saved.Nodup) := by
  refine ⟨?_, ?_, ?_, ?_, ?_⟩
  · intro p hp
    obtain ⟨k, img, -, rfl⟩ := mem_mapIdxFrom _ _ _ _ hp
    exact ⟨List.nodup_nil, List.nodup_nil⟩
  · by_cases hu : s.currentUser = ""
    · rw [handleToggleLike_of_logged_out s postId hu]; exact h
    · rw [posts_handleToggleLike s postId hu]
      intro q hq
      obtain ⟨p, hp, rfl⟩ := List.mem_map.mp hq
      split
      · exact ⟨nodup_toggleMember _ _ (h p hp).1, (h p hp).2⟩
      · exact h p hp
  · by_cases hu : s.currentUser = ""
    · rw [handleToggleSave_of_logged_out s postId hu]; exact h
    · rw [posts_handleToggleSave s postId hu]
      intro q hq
      obtain ⟨p, hp, rfl⟩ := List.mem_map.mp hq
      split
      · exact ⟨(h p hp).1, nodup_toggleMember _ _ (h p hp).2⟩
      · exact h p hp
  · rcases posts_handleAddComment_cases s postId text uuids nows with hc | hc
    · rw [hc]; exact h
    · rw [hc]
      intro q hq
      obtain ⟨k, p, hp, rfl⟩ := mem_mapIdxFrom _ _ _ _ hq
      rw [(likes_saved_addCommentTo _ _ _ _ _ k p).1, (likes_saved_addCommentTo _ _ _ _ _ k p).2]
      exact h p hp
  · unfold handleCreatePost
    split
    · exact h
    · intro q hq
      rcases List.mem_cons.mp hq with rfl | hq
      · exact ⟨List.nodup_nil, List.nodup_nil⟩
      · exact h q hq

/-- Instance of C8 at `sampleState`. -/
theorem C8_likes_saved_nodup_witness :
    (∀ p ∈ sampleState.posts, p.likes.Nodup ∧ p.saved.Nodup) ∧
    (∀ p ∈ initPosts (fun _ => 0), p.likes.Nodup ∧ p.saved.Nodup) ∧
    (∀ p ∈ (handleToggleLike sampleState "p1").posts, p.likes.Nodup ∧ p.saved.Nodup) ∧
    (∀ p ∈ (handleToggleSave sampleState "p1").posts, p.likes.Nodup ∧ p.saved.Nodup) ∧
    (∀ p ∈ (handleAddComment sampleState "p1" "nice!" (fun _ => "c") (fun _ => 7)).posts,
      p.likes.Nodup ∧ p.saved.Nodup) ∧
    (∀ p ∈ (handleCreatePost sampleState ⟨"img", none, none⟩ "n" 9).posts,
      p.likes.Nodup ∧ p.saved.Nodup) :=
  ⟨by decide, C8_likes_saved_nodup sampleState "p1" "nice!" ⟨"img", none, none⟩
    (fun _ => "c") (fun _ => 7) "n" 9 (fun _ => 0) (by decide)⟩

/-- C9: `handleToggleLike`, `handleToggleSave` and `handleAddComment` produce a
post list of the same length in which, at every position, a post whose id
differs from `postId` is unchanged and a post whose id matches differs from
the old one in at most the field the operation targets (`likes`, `saved`,
`comments` respectively); when no post has the given id, the list is
unchanged. -/
theorem C9_frame (s : AppState) (postId text : String)
    (uuids : Nat → String) (nows : Nat → Int) :
    ((handleToggleLike s postId).posts.length = s.posts.length ∧
      (∀ (i : Nat) (p : PostType), s.posts[i]? = some p →
        ∃ q, (handleToggleLike s postId).posts[i]? = some q ∧
          (p.id ≠ postId → q = p) ∧ q = { p with likes := q.likes }) ∧
      ((∀ p ∈ s.posts, p.id ≠ postId) → (handleToggleLike s postId).posts = s.posts)) ∧
    ((handleToggleSave s postId).posts.length = s.posts.length ∧
      (∀ (i : Nat) (p : PostType), s.posts[i]? = some p →
        ∃ q, (handleToggleSave s postId).posts[i]? = some q ∧
          (p.id ≠ postId → q = p) ∧ q = { p with saved := q.saved }) ∧
      ((∀ p ∈ s.posts, p.id ≠ postId) → (handleToggleSave s postId).posts = s.posts)) ∧
    ((handleAddComment s postId text uuids nows).posts.length = s.posts.length ∧
      (∀ (i : Nat) (p : PostType), s.posts[i]? = some p →
        ∃ q, (handleAddComment s postId text uuids nows).posts[i]? = some q ∧
          (p.id ≠ postId → q = p) ∧ q = { p with comments := q.comments }) ∧
      ((∀ p ∈ s.posts, p.id ≠ postId) →
        (handleAddComment s postId text uuids nows).posts = s.posts)) := by
  refine ⟨?_, ?_, ?_⟩
  · by_cases hu : s.currentUser = ""
    · rw [handleToggleLike_of_logged_out s postId hu]
      exact ⟨rfl, fun i p hp => ⟨p, hp, fun _ => rfl, rfl⟩, fun _ => rfl⟩
    · rw [posts_handleToggleLike s postId hu]
      refine ⟨List.length_map _ _, ?_, ?_⟩
      · intro i p hp
        by_cases hid : p.id = postId
        · exact ⟨{ p with likes := toggleMember s.currentUser p.likes },
            by simp [List.getElem?_map, hp, hid], fun hne => absurd hid hne, rfl⟩
        · exact ⟨p, by simp [List.getElem?_map, hp, hid], fun _ => rfl, rfl⟩
      · intro hno
        conv_rhs => rw [← List.map_id s.posts]
        apply List.map_congr_left
        intro p hp
        simp [hno p hp]
  · by_cases hu : s.currentUser = ""
    · rw [handleToggleSave_of_logged_out s postId hu]
      exact ⟨rfl, fun i p hp => ⟨p, hp, fun _ => rfl, rfl⟩, fun _ => rfl⟩
    · rw [posts_handleToggleSave s postId hu]
      refine ⟨List.length_map _ _, ?_, ?_⟩
      · intro i p hp
        by_cases hid : p.id = postId
        · exact ⟨{ p with saved := toggleMember s.currentUser p.saved },
            by simp [List.getElem?_map, hp, hid], fun hne => absurd hid hne, rfl⟩
        · exact ⟨p, by simp [List.getElem?_map, hp, hid], fun _ => rfl, rfl⟩
      · intro hno
        conv_rhs => rw [← List.map_id s.posts]
        apply List.map_congr_left
        intro p hp
        simp [hno p hp]
  · rcases posts_handleAddComment_cases s postId text uuids nows with hc | hc
    · rw [hc]
      exact ⟨rfl, fun i p hp => ⟨p, hp, fun _ => rfl, rfl⟩, fun _ => rfl⟩
    · rw [hc]
      refine ⟨length_mapIdxFrom _ _ _, ?_, ?_⟩
      · intro i p hp
        refine ⟨addCommentTo s.currentUser postId text uuids nows (0 + i) p,
          by rw [getElem?_mapIdxFrom, hp]; rfl, ?_, ?_⟩
        · intro hne
          simp [addCommentTo, hne]
        · unfold addCommentTo
          split <;> rfl
      · intro hno
        apply mapIdxFrom_eq_self
        intro k p hp
        simp [addCommentTo, hno p hp]

/-- Instance of C9 at `sampleState`, where no post has the id "p9". -/
theorem C9_frame_witness :
    (∀ p ∈ sampleState.posts, p.id ≠ "p9") ∧
    (handleToggleLike sampleState "p9").posts = sampleState.posts ∧
    (handleToggleSave sampleState "p9").posts = sampleState.posts ∧
    (handleAddComment sampleState "p9" "nice!" (fun _ => "c") (fun _ => 7)).posts
      = sampleState.posts :=
  ⟨by decide,
    (C9_frame sampleState "p9" "nice!" (fun _ => "c") (fun _ => 7)).1.2.2 (by decide),
    (C9_frame sampleState "p9" "nice!" (fun _ => "c") (fun _ => 7)).2.1.2.2 (by decide),
    (C9_frame sampleState "p9" "nice!" (fun _ => "c") (fun _ => 7)).2.2.2.2 (by decide)⟩

/-! ## Scenario -/

/-- C10: from the default state (nothing persisted: the four default users,
the four seed posts p1..p4, no current user), running `handleAuth("meera")`,
`handleToggleLike("p1")`, `handleToggleSave("p2")`,
`handleAddComment("p1", "nice!")` and `handleCreatePost` yields a post list
with 5 entries whose first entry is the new post, followed by p1..p4 in
order, in which `likes` of p1 contains "meera", `saved` of p2 contains "meera"
and `comments` of p1 has exactly one entry, with text "nice!" and user
"meera"; this for every value the clock and the identifier generator
return. -/
theorem C10_scenario (seedNow : Nat → Int) (authId : String)
    (uuids : Nat → String) (nows : Nat → Int) (d : PostData) (uuid : String) (now : Int) :
    (initialState none seedNow).users = DEFAULT_USERS ∧
    (initialState none seedNow).posts.map (fun p => p.id) = ["p1", "p2", "p3", "p4"] ∧
    (initialState none seedNow).currentUser = "" ∧
    ∃ newPost p1 p2 p3 p4 c,
      (handleCreatePost
        (handleAddComment
          (handleToggleSave
            (handleToggleLike (handleAuth (initialState none seedNow) "meera" authId) "p1")
            "p2")
          "p1" "nice!" uuids nows)
        d uuid now).posts = [newPost, p1, p2, p3, p4] ∧
      newPost.id = uuid ∧ newPost.author = "meera" ∧ newPost.image = d.image ∧
      newPost.likes = [] ∧ newPost.saved = [] ∧ newPost.comments = [] ∧
      p1.id = "p1" ∧ p2.id = "p2" ∧ p3.id = "p3" ∧ p4.id = "p4" ∧
      "meera" ∈ p1.likes ∧ "meera" ∈ p2.saved ∧
      p1.comments = [c] ∧ c.text = "nice!" ∧ c.user = "meera" := by
  refine ⟨rfl, rfl, rfl, _, _, _, _, _, _, rfl, rfl, rfl, rfl, rfl, rfl, rfl,
    rfl, rfl, rfl, rfl, ?_, ?_, rfl, rfl, rfl⟩
  · show "meera" ∈ ["meera"]
    exact List.mem_singleton_self _
  · show "meera" ∈ ["meera"]
    exact List.mem_singleton_self _

end InstaClone
